import Mathlib

/-!
# Verification of the filebrowser model (`src/lib/model.js`)

This development shallowly embeds the state engine of the JupyterLab-style
file browser model: directory navigation (`FileBrowserModel.cd`), the
session reconciler (`_populateSessions` / `handleContents`), state
restoration (`restore`), the chunked upload pipeline (`_upload`), and the
filtered item views (`TogglableHiddenFileBrowserModel.items`,
`FilterFileBrowserModel.items`).

Asynchronous methods are embedded as explicit state-passing functions.
External collaborators (the content service's fetch results, the session
registry snapshot, the state store, chunk-save outcomes, disposal) are
supplied as oracles, so each embedded operation is a pure function of the
model state and the oracle.  The JavaScript runtime is single threaded, so
the synchronous prefix of a method (the code up to its first `await`) runs
atomically; this is used to model concurrent `cd` calls faithfully.
-/

/-- The size (in bytes) of the biggest chunk uploaded at once
(`CHUNK_SIZE` in `model.js`). -/
def CHUNK_SIZE : Nat := 1024 * 1024

/-- The maximum upload size for servers without chunked upload
(`LARGE_FILE_SIZE` in `model.js`). -/
def LARGE_FILE_SIZE : Nat := 15 * 1024 * 1024

/-! ## Path resolution

`cd` delegates resolution of a target against the current path to the
external Content Service Client (`this.manager.services.contents.resolvePath`).
Modelled from the spec: the spec's Navigation Coordinator "resolves `target`
against the current path, supporting `.` (no-op / pending-path passthrough)
and `..`-style ascension" and gives the example that `".."` from `"a/b/c"`
resolves to `"a/b"`.  Paths in the model are slash separated without a
leading slash, and the root path is the empty string (`rootPath` in
`model.js` returns `''` for a drive-less model), so resolution is posix
resolution against the current path followed by stripping the leading
slash. -/

/-- Split a character list at every `/` (the character-level core of
`String.splitOn "/"`, written structurally so it computes by kernel
reduction). -/
def splitSlashCore : List Char → List (List Char)
  | [] => [[]]
  | c :: rest =>
    let r := splitSlashCore rest
    if c = '/' then [] :: r
    else
      match r with
      | [] => [[c]]
      | g :: gs => (c :: g) :: gs

/-- Split a string at every `/` (equivalent to `s.splitOn "/"`). -/
def splitSlash (s : String) : List String :=
  (splitSlashCore s.data).map fun l => String.mk l

/-- Join segments with `/` (equivalent to `String.intercalate "/"`). -/
def joinSlash : List String → String
  | [] => ""
  | [s] => s
  | s :: rest => s ++ "/" ++ joinSlash rest

/-- Normalise a list of path segments: drop empty and `.` segments, and let
`..` remove the previously accepted segment (clamping at the root). -/
def resolveSegs (segs : List String) : List String :=
  segs.foldl
    (fun acc s =>
      if s = "" ∨ s = "." then acc
      else if s = ".." then acc.dropLast
      else acc ++ [s])
    []

/-- Modelled from the spec: the external Content Service Client's
`resolvePath(currentPath, target)` for a drive-less model.  An absolute
target replaces the base; otherwise the target is resolved relative to the
base; the result carries no leading slash and the root is `""`. -/
def resolvePath (base target : String) : String :=
  let full := if target.data.head? = some '/' then target else base ++ "/" ++ target
  joinSlash (resolveSegs (splitSlash full))

example : resolvePath "a/b/c" ".." = "a/b" := by decide
example : resolvePath "a" "b" = "a/b" := by decide
example : resolvePath "a/b" "/" = "" := by decide

/-! ## Data model -/

/-- A directory entry as returned by the content service.  `type` is the
JavaScript string tag (`"directory"`, `"file"`, `"notebook"`, ...);
`indices` is the match-descriptor field written by
`FilterFileBrowserModel.items`. -/
structure DirEntry where
  name : String
  path : String
  type : String
  indices : Option (List Nat) := none
deriving DecidableEq

/-- A running-session entry from the session registry (only the fields the
model reads). -/
structure SessionEntry where
  path : String
  sid : String := ""
deriving DecidableEq

/-- The part of a contents model consumed by `handleContents`. -/
structure ContentsModel where
  name : String
  path : String
  writable : Bool := true
  content : List DirEntry := []
deriving DecidableEq

/-- The cached browser-model state mutated by `cd` / `handleContents` /
`_populateSessions`: the current model path and name (`this._model`), the
cached directory entries (`this._items`), the set of their paths
(`this._paths`, modelled as the list of paths), the active sessions
(`this._sessions`) and the pending navigation target
(`this._pendingPath`). -/
structure BrowserState where
  modelPath : String
  modelName : String := ""
  items : List DirEntry := []
  paths : List String := []
  sessions : List SessionEntry := []
  pendingPath : Option String := none
deriving DecidableEq

/-- `FileBrowserModel.handleContents`: replace the cached model, items and
path set with the fetched contents. -/
def handleContents (st : BrowserState) (c : ContentsModel) : BrowserState :=
  { st with
    modelPath := c.path
    modelName := c.name
    items := c.content
    paths := c.content.map (·.path) }

/-- `FileBrowserModel._populateSessions`: clear the session list, then push
every registry session whose path is among the cached directory-entry
paths, in registry order. -/
def populateSessions (st : BrowserState) (models : List SessionEntry) : BrowserState :=
  { st with
    sessions := models.foldl (fun acc m => if st.paths.contains m.path then acc ++ [m] else acc) [] }

/-- The target-resolution prefix of `FileBrowserModel.cd`: a `.` target
resolves to the pending path when one is set and non-empty (JavaScript
truthiness of `this._pendingPath || this._model.path`), otherwise to the
current path; any other target is resolved by the content service. -/
def cdResolve (modelPath : String) (pendingPath : Option String) (target : String) : String :=
  if target = "." then
    match pendingPath with
    | some p => if p = "" then modelPath else p
    | none => modelPath
  else resolvePath modelPath target

example : cdResolve "a/b/c" none ".." = "a/b" := by decide
example : cdResolve "a" (some "") "." = "a" := by decide

/-! ## Directory change (`FileBrowserModel.cd`)

`cd` is embedded in two complementary ways.

`cdRun` is the complete-execution semantics used for the error-handling
claims: starting with no pending fetch, it resolves the target, clears the
session list when the target differs from the current path (the code does
this *before* issuing the fetch), consults a fetch oracle, and on success
runs `handleContents`, emits `pathChanged` when the path changed, re-runs
session reconciliation (`onRunningChanged`, which also emits `refreshed`)
and emits `refreshed`; on an error response with HTTP status 404 and a
resolved target different from the literal string `"/"` it emits
`connectionFailure` and recursively retries `cd "/"` (the recursion in the
`catch` handler of `model.js`); on any other error it emits
`connectionFailure` and stops.  Because the recursion is not structurally
bounded (the retry guard compares against `"/"`), `cdRun` is fueled:
`state = none` means the fuel ran out with the recursion still going.  The
`fetches` field records every path passed to `services.contents.get`, in
order, including fetches performed before the fuel ran out.  Two details of
the success path are elided as irrelevant to the claims: the
`this.isDisposed` early return inside the `then` handler (the model is not
disposed in any navigation claim) and the fire-and-forget state-store save
of the new path. -/

/-- An event emitted during a `cd` run. -/
inductive CdEvent where
  | pathChanged (oldPath newPath : String)
  | refreshed
  | connectionFailure (status : Option Nat)
deriving DecidableEq

/-- The outcome of a directory fetch, supplied by the fetch oracle:
either a contents model or an error carrying an optional HTTP status. -/
inductive FetchRes where
  | ok (c : ContentsModel)
  | err (status : Option Nat)
deriving DecidableEq

/-- The result of a (fueled) `cd` run: the final cached state (`none` when
the fuel was exhausted mid-recursion), the events emitted so far and the
paths fetched so far. -/
structure CdRun where
  state : Option BrowserState
  events : List CdEvent
  fetches : List String
deriving DecidableEq

/-- Complete-execution semantics of `FileBrowserModel.cd` (see the section
comment).  `fetchO` is the content service, `runningO` the session
registry's current snapshot. -/
def cdRun (fetchO : String → FetchRes) (runningO : List SessionEntry) :
    Nat → BrowserState → String → CdRun
  | 0, _, _ => { state := none, events := [], fetches := [] }
  | fuel + 1, st, target =>
    let newValue := cdResolve st.modelPath st.pendingPath target
    let oldValue := st.modelPath
    let st1 : BrowserState :=
      { st with
        pendingPath := some newValue
        sessions := if oldValue = newValue then st.sessions else [] }
    match fetchO newValue with
    | .ok c =>
      let st2 := { handleContents st1 c with pendingPath := none }
      let st3 := populateSessions st2 runningO
      { state := some st3
        events :=
          (if oldValue = newValue then [] else [.pathChanged oldValue newValue]) ++
            [.refreshed, .refreshed]
        fetches := [newValue] }
    | .err status =>
      let st2 := { st1 with pendingPath := none }
      if status = some 404 ∧ newValue ≠ "/" then
        let r := cdRun fetchO runningO fuel st2 "/"
        { state := r.state
          events := .connectionFailure status :: r.events
          fetches := newValue :: r.fetches }
      else
        { state := some st2
          events := [.connectionFailure status]
          fetches := [newValue] }

/-! ## The synchronous prefix of `cd` (request collapsing)

JavaScript is single threaded, so every `cd` call runs atomically from its
entry to its first suspension.  That prefix resolves the target and then:
if a fetch is pending for the same resolved path, returns the very same
pending promise (`return this._pending`); if a fetch is pending for a
different path, suspends awaiting that promise before fetching; otherwise
stores a fresh pending promise and issues the underlying fetch.
Promises are given identities (`Nat`) so that "the very same promise" is
expressible; `fetchCount` counts issued fetches. -/

/-- Navigation state for the request-collapsing model: the current path,
the pending promise (identity paired with its target path), a fresh-promise
counter and the number of underlying fetches issued. -/
structure NavPend where
  modelPath : String
  pending : Option (Nat × String) := none
  nextId : Nat := 0
  fetchCount : Nat := 0
deriving DecidableEq

/-- What the synchronous prefix of a `cd` call does: return the existing
pending promise, suspend awaiting the pending promise (issuing its own
fetch only after that promise settles), or issue a fresh fetch. -/
inductive CdSync where
  | samePending (pid : Nat)
  | awaitPending (pid : Nat)
  | issued (pid : Nat)
deriving DecidableEq

/-- The synchronous prefix of `FileBrowserModel.cd` (lines 208-231 of
`model.js`, up to the first suspension point). -/
def cdSyncStep (st : NavPend) (target : String) : CdSync × NavPend :=
  let nv := cdResolve st.modelPath (st.pending.map (·.2)) target
  match st.pending with
  | some (pid, pp) =>
    if nv = pp then (.samePending pid, st) else (.awaitPending pid, st)
  | none =>
    (.issued st.nextId,
      { st with
        pending := some (st.nextId, nv)
        nextId := st.nextId + 1
        fetchCount := st.fetchCount + 1 })

/-- Run the synchronous prefixes of a sequence of `cd` calls back to back,
which is exactly how the single-threaded runtime executes concurrent calls
issued before any fetch resolves. -/
def cdSyncCalls (st : NavPend) : List String → NavPend × List CdSync
  | [] => (st, [])
  | t :: ts =>
    let r := cdSyncStep st t
    let rest := cdSyncCalls r.2 ts
    (rest.1, r.1 :: rest.2)

/-! ## State restoration (`FileBrowserModel.restore`) -/

/-- The part of the model state read and written by `restore`: the state
database key (`this._key`, `""` when unset), whether a state store was
supplied (`this._state !== null`) and whether the one-shot `restored`
promise has been resolved. -/
structure RestoreState where
  key : String := ""
  hasState : Bool := true
  restoredResolved : Bool := false
deriving DecidableEq

/-- The outcome of `state.fetch(key)` supplied by the state-store oracle:
the fetch threw, returned no value, or returned a record with the given
`path` string. -/
inductive RFetch where
  | threw
  | noValue
  | value (path : String)
deriving DecidableEq

/-- Oracle for a `restore` run: the state-store fetch outcome and whether
the verification `contents.get(path)` succeeds. -/
structure ROracle where
  fetchOutcome : RFetch := .noValue
  getOk : Bool := true
deriving DecidableEq

/-- An externally visible action performed by `restore`. -/
inductive RAct where
  | stateFetch (key : String)
  | navRoot
  | contentsGet (path : String)
  | nav (path : String)
  | stateRemove (key : String)
  | resolveRestored
deriving DecidableEq

/-- The state-database key `restore` constructs:
`file-browser-<id>:cwd`. -/
def restoreKey (idArg : String) : String :=
  "file-browser-" ++ idArg ++ ":cwd"

/-- `FileBrowserModel.restore(id, populate)`: if a restoration key is
already set, return immediately (no actions); otherwise set the key and,
when populating with a state store present, fetch the persisted record,
navigate to root then to the persisted path (removing the record if
fetching or verification throws), and finally resolve the one-shot
`restored` promise. -/
def restoreRun (st : RestoreState) (idArg : String) (populate : Bool) (o : ROracle) :
    RestoreState × List RAct :=
  if st.key ≠ "" then (st, [])
  else if populate = false ∨ st.hasState = false then
    ({ st with key := restoreKey idArg, restoredResolved := true }, [.resolveRestored])
  else
    match o.fetchOutcome with
    | .threw =>
      ({ st with key := restoreKey idArg, restoredResolved := true },
        [.stateFetch (restoreKey idArg), .stateRemove (restoreKey idArg), .resolveRestored])
    | .noValue =>
      ({ st with key := restoreKey idArg, restoredResolved := true },
        [.stateFetch (restoreKey idArg), .resolveRestored])
    | .value p =>
      if o.getOk then
        ({ st with key := restoreKey idArg, restoredResolved := true },
          [RAct.stateFetch (restoreKey idArg)] ++ (if p = "" then [] else [RAct.navRoot]) ++
            [.contentsGet p, .nav p, .resolveRestored])
      else
        ({ st with key := restoreKey idArg, restoredResolved := true },
          [RAct.stateFetch (restoreKey idArg)] ++ (if p = "" then [] else [RAct.navRoot]) ++
            [.contentsGet p, .stateRemove (restoreKey idArg), .resolveRestored])

/-! ## The chunked upload pipeline (`FileBrowserModel._upload`, chunked branch)

The chunked branch of `_upload` is a sequential loop over 1 MB pieces.  Per
piece it emits an `update` event carrying `start / file.size`, replaces the
tracked upload entry (`splice(indexOf(upload))` followed by `push`), and
awaits `uploadInner`, which checks for disposal (twice, before and after the
base64 encode — collapsed here into one check per piece since both precede
the network save) and then saves the piece, passing chunk number `-1` for
the terminal piece and `end / CHUNK_SIZE` otherwise.  A rejection of
`uploadInner` (disposal or a failed save) is caught: the catch handler
removes the first tracked upload whose *path* equals `file.name`, emits one
`failure` event, and rethrows.  After the terminal piece succeeds the loop
exits, the tracked entry is spliced out and one `finish` event is emitted.

The trace interleaves `uploadChanged` emissions with the network saves and
the disposed rejection, so ordering statements ("an update after each
successful piece", "no events after the rejection") are statements about
one list. -/

/-- A tracked in-flight upload (`IUploadModel`): destination path and
progress fraction. -/
structure UploadEntry where
  path : String
  progress : ℚ
deriving DecidableEq

/-- JavaScript `array.splice(array.indexOf(u))`: if `u` occurs, remove it
and everything after it; if it does not (`indexOf` returns `-1`,
`splice(-1)` targets the last element), remove the last element. -/
def spliceAt (l : List UploadEntry) (u : UploadEntry) : List UploadEntry :=
  if u ∈ l then l.take (l.indexOf u) else l.dropLast

/-- One step of the upload trace: an `uploadChanged` emission, a network
save of the piece starting at `offset` with the wire chunk argument, or the
rejection of the disposal check. -/
inductive UAct where
  | emitStart (progress : ℚ)
  | emitUpdate (progress : ℚ)
  | emitFinish
  | emitFailure
  | save (offset : Nat) (chunk : Int)
  | rejectDisposed
deriving DecidableEq

/-- Why a chunked upload stopped early. -/
inductive PieceErr where
  | disposed
  | saveErr
deriving DecidableEq

/-- Result of running the chunked-upload loop: the interleaved trace, the
in-flight uploads list afterwards, and the error that aborted the loop
(`none` on success). -/
structure ChunkRun where
  trace : List UAct
  uploads : List UploadEntry
  err : Option PieceErr
deriving DecidableEq

/-- The wire chunk argument for piece `j`:
`-1` for the terminal piece, `end / CHUNK_SIZE = j + 1` otherwise. -/
def chunkArg (sz j : Nat) : Int :=
  if sz ≤ (j + 1) * CHUNK_SIZE then -1 else (j : Int) + 1

/-- The loop of the chunked branch of `_upload`, from piece `j` with the
current tracked entry `upload` and in-flight list `uploads`.  `dis j` is
whether the model is observed disposed at piece `j`'s disposal checks;
`ok j` is whether piece `j`'s save succeeds. -/
def chunkLoop (fname path : String) (sz : Nat) (dis ok : Nat → Bool)
    (j : Nat) (upload : UploadEntry) (uploads : List UploadEntry) : ChunkRun :=
    let newUpload : UploadEntry := ⟨path, ((j * CHUNK_SIZE : Nat) : ℚ) / (sz : ℚ)⟩
    let ups1 := spliceAt uploads upload ++ [newUpload]
    if dis j then
      { trace := [.emitUpdate newUpload.progress, .rejectDisposed, .emitFailure]
        uploads := ups1.eraseP fun u => decide (fname = u.path)
        err := some .disposed }
    else if ok j then
      if sz ≤ (j + 1) * CHUNK_SIZE then
        { trace := [.emitUpdate newUpload.progress, .save (j * CHUNK_SIZE) (chunkArg sz j),
            .emitFinish]
          uploads := spliceAt ups1 newUpload
          err := none }
      else
        let r := chunkLoop fname path sz dis ok (j + 1) newUpload ups1
        { trace := .emitUpdate newUpload.progress ::
            .save (j * CHUNK_SIZE) (chunkArg sz j) :: r.trace
          uploads := r.uploads
          err := r.err }
    else
      { trace := [.emitUpdate newUpload.progress, .save (j * CHUNK_SIZE) (chunkArg sz j),
          .emitFailure]
        uploads := ups1.eraseP fun u => decide (fname = u.path)
        err := some .saveErr }
termination_by sz - j * CHUNK_SIZE
decreasing_by
  simp_wf
  unfold CHUNK_SIZE at *
  omega

/-- The destination path of an upload:
`path ? path + '/' + file.name : file.name`. -/
def uploadDestPath (modelPath fname : String) : String :=
  if modelPath = "" then fname else modelPath ++ "/" ++ fname

/-- The chunked branch of `FileBrowserModel._upload`: emit `start` with
progress `0`, then run the piece loop from piece `0` with the fresh
(untracked) entry `{path, progress: 0}`. -/
def uploadChunked (fname modelPath : String) (sz : Nat) (dis ok : Nat → Bool)
    (uploads0 : List UploadEntry) : ChunkRun :=
  { trace := .emitStart 0 ::
      (chunkLoop fname (uploadDestPath modelPath fname) sz dis ok 0
        ⟨uploadDestPath modelPath fname, 0⟩ uploads0).trace
    uploads := (chunkLoop fname (uploadDestPath modelPath fname) sz dis ok 0
        ⟨uploadDestPath modelPath fname, 0⟩ uploads0).uploads
    err := (chunkLoop fname (uploadDestPath modelPath fname) sz dis ok 0
        ⟨uploadDestPath modelPath fname, 0⟩ uploads0).err }

/-- The number of pieces the loop processes when every save succeeds,
counted from piece `j` (closed form: one piece per started `CHUNK_SIZE`
window of the remaining bytes, and always at least one). -/
def npieces (sz j : Nat) : Nat :=
  (sz - j * CHUNK_SIZE - 1) / CHUNK_SIZE + 1

/-- The per-piece block of the successful trace: the `update` emission for
piece `j` followed by its save. -/
def pieceBlock (sz j : Nat) : List UAct :=
  [.emitUpdate (((j * CHUNK_SIZE : Nat) : ℚ) / (sz : ℚ)), .save (j * CHUNK_SIZE) (chunkArg sz j)]

/-- The per-piece blocks of an uninterrupted run: `n` consecutive pieces
starting at piece `j`, each contributing its `update` emission followed by
its save. -/
def blocksUpTo (sz : Nat) : Nat → Nat → List UAct
  | _, 0 => []
  | j, n + 1 => pieceBlock sz j ++ blocksUpTo sz (j + 1) n

/-- The progress values carried by the `update` events of a trace, in
order. -/
def updatesOf (trace : List UAct) : List ℚ :=
  trace.filterMap fun a =>
    match a with
    | .emitUpdate p => some p
    | _ => none

/-! ## Filtered item views -/

/-- The value returned by a caller-supplied filter:
`boolean | Partial<IScore> | null`.  A score object carries the optional
`indices` match descriptor. -/
inductive FilterRes where
  | bool (b : Bool)
  | score (indices : Option (List Nat))
  | nullv
deriving DecidableEq

/-- JavaScript truthiness of a filter result (`!!filtered`): `false` and
`null` are falsy; every object — even an empty score — is truthy. -/
def truthyF : FilterRes → Bool
  | .bool b => b
  | .score _ => true
  | .nullv => false

/-- The `indices` mutation `FilterFileBrowserModel.items` performs on a
non-directory entry: when the filter result is not a boolean, the entry's
`indices` field is overwritten with `filtered?.indices`. -/
def applyIndices (filt : DirEntry → FilterRes) (e : DirEntry) : DirEntry :=
  match filt e with
  | .bool _ => e
  | .score ix => { e with indices := ix }
  | .nullv => { e with indices := none }

/-- `FilterFileBrowserModel.items` as a function of the item sequence it
consumes (`super.items()`): a directory entry is always yielded; a
non-directory entry has the filter applied — its `indices` field is
rewritten when the result is not a boolean — and is yielded exactly when
the result is truthy. -/
def filterModelItems (filt : DirEntry → FilterRes) : List DirEntry → List DirEntry
  | [] => []
  | e :: rest =>
    if e.type = "directory" then e :: filterModelItems filt rest
    else if truthyF (filt e) then applyIndices filt e :: filterModelItems filt rest
    else filterModelItems filt rest

/-- `TogglableHiddenFileBrowserModel.items`: all items when hidden files
are included, otherwise only items whose name does not start with `.`. -/
def togglableItems (includeHiddenFiles : Bool) (l : List DirEntry) : List DirEntry :=
  if includeHiddenFiles then l else l.filter fun e => !(e.name.startsWith ".")

/-! # Claims -/

/-- Helper: pushing the matching elements of a list onto an accumulator is
accumulation followed by `filter`. -/
theorem foldl_push_filter {α : Type} (p : α → Bool) :
    ∀ (l acc : List α),
      l.foldl (fun acc m => if p m then acc ++ [m] else acc) acc = acc ++ l.filter p := by
  intro l
  induction l with
  | nil => intro acc; simp
  | cons x xs ih =>
    intro acc
    simp only [List.foldl_cons, List.filter_cons]
    by_cases h : p x = true
    · rw [if_pos h, ih, if_pos h]
      simp
    · rw [if_neg h, ih]
      simp [h]

/-- C6: session reconciliation retains exactly the registry sessions whose
path is among the current directory-entry paths — in general,
`_populateSessions` after `handleContents` keeps precisely the sessions
whose path occurs among the fetched entries' paths, in registry order; and
on the concrete instance with directory entries `a/x.ipynb`, `a/y.txt` and
registry sessions `a/x.ipynb`, `a/z.ipynb` it retains exactly the
`a/x.ipynb` session. -/
theorem c6_session_reconciliation :
    (∀ (st0 : BrowserState) (c : ContentsModel) (models : List SessionEntry),
      (populateSessions (handleContents st0 c) models).sessions =
        models.filter fun m => (c.content.map (·.path)).contains m.path)
    ∧
    (populateSessions
        (handleContents { modelPath := "" }
          { name := "a", path := "a",
            content := [⟨"x.ipynb", "a/x.ipynb", "notebook", none⟩,
              ⟨"y.txt", "a/y.txt", "file", none⟩] })
        [⟨"a/x.ipynb", "s1"⟩, ⟨"a/z.ipynb", "s2"⟩]).sessions =
      [⟨"a/x.ipynb", "s1"⟩] := by
  constructor
  · intro st0 c models
    unfold populateSessions handleContents
    simp only
    rw [foldl_push_filter]
    simp
  · decide

/-- C7 counterexample: the claim says `cd(".")` resolves to the pending
target path whenever a fetch is pending, but `model.js` computes
`this._pendingPath || this._model.path`, and the pending path for a root
navigation is the empty string, which is falsy: with current path `"a"`
and pending path `""`, the resolved target is `"a"`, not the pending
`""`. -/
theorem c7_counterexample :
    cdResolve "a" (some "") "." = "a" ∧ "a" ≠ "" := by
  exact ⟨by decide, by decide⟩

/-- C7 (amended): `cd("..")` from current path `"a/b/c"` resolves to
`"a/b"` (whatever fetch is pending, since resolution of a non-`"."` target
ignores the pending path); `cd(".")` resolves to the pending target path if
a fetch with a *non-empty* target path is pending — a pending root
navigation (`""`) is falsy in `this._pendingPath || this._model.path` and
falls back to the current path — and otherwise resolves to the current
path. -/
theorem c7_dot_and_dotdot_resolution :
    (∀ pendingPath : Option String, cdResolve "a/b/c" pendingPath ".." = "a/b")
    ∧ (∀ modelPath p : String, p ≠ "" → cdResolve modelPath (some p) "." = p)
    ∧ (∀ modelPath p : String, cdResolve modelPath (some p) "." = if p = "" then modelPath else p)
    ∧ (∀ modelPath : String, cdResolve modelPath none "." = modelPath) := by
  refine ⟨?_, ?_, ?_, ?_⟩
  · intro pendingPath
    unfold cdResolve
    rw [if_neg (by decide)]
    decide
  · intro modelPath p hp
    unfold cdResolve
    rw [if_pos rfl]
    simp [hp]
  · intro modelPath p
    unfold cdResolve
    rw [if_pos rfl]
  · intro modelPath
    unfold cdResolve
    rw [if_pos rfl]

/-- C7 witness: the amended theorem applied at the concrete pending path
`"x"` and current path `"a/b/c"`. -/
theorem c7_dot_and_dotdot_resolution_witness :
    cdResolve "a/b/c" (some "x") ".." = "a/b" ∧ cdResolve "a/b/c" (some "x") "." = "x" := by
  exact ⟨(c7_dot_and_dotdot_resolution.1 (some "x")),
    (c7_dot_and_dotdot_resolution.2.1 "a/b/c" "x" (by decide))⟩

/-- C9: `restore` is idempotent.  A first call (with any arguments and any
oracle) always leaves the restoration key non-empty — either it was already
set, or it is set to `file-browser-<id>:cwd` before any suspension — so any
subsequent `restore` call returns immediately: it leaves the state
untouched and performs no action at all (no state-store fetch, no
navigation), regardless of its arguments. -/
theorem c9_restore_idempotent
    (st : RestoreState) (idA : String) (popA : Bool) (oA : ROracle)
    (idB : String) (popB : Bool) (oB : ROracle) :
    restoreRun (restoreRun st idA popA oA).1 idB popB oB =
      ((restoreRun st idA popA oA).1, []) := by
  have keyNe : ∀ s : String, restoreKey s ≠ "" := by
    intro s h
    have hlen := congrArg String.length h
    unfold restoreKey at hlen
    rw [String.length_append, String.length_append] at hlen
    have h13 : ("file-browser-" : String).length = 13 := by decide
    have h4 : (":cwd" : String).length = 4 := by decide
    have h0 : ("" : String).length = 0 := by decide
    rw [h13, h4, h0] at hlen
    omega
  have hkey : (restoreRun st idA popA oA).1.key ≠ "" := by
    by_cases h : st.key ≠ ""
    · unfold restoreRun
      rw [if_pos h]
      exact h
    · unfold restoreRun
      rw [if_neg h]
      split
      · exact keyNe idA
      · split
        · exact keyNe idA
        · exact keyNe idA
        · split
          · exact keyNe idA
          · exact keyNe idA
  generalize hgen : restoreRun st idA popA oA = r at hkey ⊢
  unfold restoreRun
  rw [if_pos hkey]

/-- A concrete browser state for the navigation counterexamples: current
path `"a"` with one active session. -/
def stA : BrowserState := { modelPath := "a", sessions := [⟨"a/x.ipynb", "s1"⟩] }

/-- A content service that always fails with HTTP 500. -/
def fetchErr500 : String → FetchRes := fun _ => .err (some 500)

/-- A content service that always fails with HTTP 404. -/
def fetchErr404 : String → FetchRes := fun _ => .err (some 404)

/-- C4 counterexample: the claim says a failed `cd` leaves the session
list unchanged, but `cd` clears `this._sessions` *before* the fetch
whenever the resolved target differs from the current path, and the catch
handler does not restore it: from `stA` (one session), `cd "b"` failing
with HTTP 500 ends with an empty session list.  Moreover the claim's
"not a 404 for a non-root target" case mis-partitions the errors: a 404
for the *root* target does not emit a single `connectionFailure` and stop —
the resolved root is `""`, which passes the `newValue !== '/'` retry guard,
so `cd "/"` under a 404-everywhere service emits `connectionFailure`
twice within two fuel steps (it keeps retrying). -/
theorem c4_counterexample :
    ((cdRun fetchErr500 [] 1 stA "b").state.map (·.sessions) = some [])
    ∧ stA.sessions = [⟨"a/x.ipynb", "s1"⟩]
    ∧ ((cdRun fetchErr404 [] 2 stA "/").events =
        [.connectionFailure (some 404), .connectionFailure (some 404)]) := by
  exact ⟨by decide, by decide, by decide⟩

/-- C4 (amended): for every `cd` whose fetch fails with a non-404 error,
exactly one `connectionFailure` carrying that error is emitted, exactly one
fetch is issued, and the cached directory entries, the path set and the
current path are unchanged; the session list is unchanged when the resolved
target equals the current path, and is left cleared otherwise (it was
emptied before the fetch and is not restored).  (A 404 — even for the root
target, whose resolved path `""` never equals the guard's `"/"` — takes the
retry path instead.) -/
theorem c4_error_leaves_cache (fetchO : String → FetchRes) (runningO : List SessionEntry)
    (fuel : Nat) (st : BrowserState) (target : String) (status : Option Nat)
    (hfuel : 0 < fuel)
    (herr : fetchO (cdResolve st.modelPath st.pendingPath target) = .err status)
    (h404 : status ≠ some 404) :
    ((cdRun fetchO runningO fuel st target).events = [.connectionFailure status])
    ∧ ((cdRun fetchO runningO fuel st target).fetches =
        [cdResolve st.modelPath st.pendingPath target])
    ∧ ((cdRun fetchO runningO fuel st target).state.map (·.items) = some st.items)
    ∧ ((cdRun fetchO runningO fuel st target).state.map (·.paths) = some st.paths)
    ∧ ((cdRun fetchO runningO fuel st target).state.map (·.modelPath) = some st.modelPath)
    ∧ ((cdRun fetchO runningO fuel st target).state.map (·.sessions) =
        some (if st.modelPath = cdResolve st.modelPath st.pendingPath target
              then st.sessions else [])) := by
  obtain ⟨n, rfl⟩ : ∃ n, fuel = n + 1 := ⟨fuel - 1, by omega⟩
  unfold cdRun
  simp only [herr]
  rw [if_neg (by intro hc; exact h404 hc.1)]
  simp

/-- C4 witness: the amended theorem applied to a poll-style `cd "."` from
`stA` under the 500-error service (target equals the current path, so the
sessions survive), with every hypothesis discharged concretely. -/
theorem c4_error_leaves_cache_witness :
    (0 < 1 ∧ fetchErr500 (cdResolve stA.modelPath stA.pendingPath ".") = .err (some 500)
      ∧ (some 500 : Option Nat) ≠ some 404)
    ∧ ((cdRun fetchErr500 [] 1 stA ".").events = [.connectionFailure (some 500)])
    ∧ ((cdRun fetchErr500 [] 1 stA ".").state.map (·.sessions) = some stA.sessions) := by
  refine ⟨⟨by decide, by decide, by decide⟩, ?_⟩
  have h := c4_error_leaves_cache fetchErr500 [] 1 stA "." (some 500)
    (by decide) (by decide) (by decide)
  refine ⟨h.1, ?_⟩
  rw [h.2.2.2.2.2]
  decide

/-- C5: the code is meant to retry the root exactly once (the guard
`newValue !== '/'` exists precisely to stop the recursion at the root), but
the resolved root path is `""`, never the literal `"/"`, so when the root
fetch itself fails with a 404 the guard passes again and `cd` keeps
re-fetching the root: from `stA`, `cd "b"` under a 404-everywhere service
performs the fetches `"a/b"`, `""`, `""` within three fuel steps, emits
three `connectionFailure`s, and has still not terminated (`state = none`).
The claimed "no further recursion" behaviour does not hold. -/
theorem c5_root_retry_unbounded :
    ((cdRun fetchErr404 [] 3 stA "b").fetches = ["a/b", "", ""])
    ∧ ((cdRun fetchErr404 [] 3 stA "b").events =
        [.connectionFailure (some 404), .connectionFailure (some 404),
          .connectionFailure (some 404)])
    ∧ ((cdRun fetchErr404 [] 3 stA "b").state = none) := by
  exact ⟨by decide, by decide, by decide⟩

/-- Helper: resolving the same target again while the previously resolved
value is the pending path yields the same value (the pending-path
passthrough for `"."` and base-relative resolution for everything else are
both stable). -/
theorem cdResolve_stable (m t : String) :
    cdResolve m (some (cdResolve m none t)) t = cdResolve m none t := by
  by_cases h : t = "."
  · subst h
    by_cases hm : m = "" <;> simp [cdResolve, hm]
  · unfold cdResolve
    rw [if_neg h, if_neg h]

/-- Helper: while a fetch for `pp` is pending and `t` keeps resolving to
`pp`, every `cd t` prefix returns the same pending promise and changes
nothing. -/
theorem cdSyncCalls_samePending (st : NavPend) (t : String) (pid : Nat) (pp : String)
    (hp : st.pending = some (pid, pp))
    (hres : cdResolve st.modelPath (some pp) t = pp) :
    ∀ k, cdSyncCalls st (List.replicate k t) = (st, List.replicate k (.samePending pid)) := by
  intro k
  induction k with
  | zero => simp [cdSyncCalls]
  | succ n ih =>
    have hstep : cdSyncStep st t = (.samePending pid, st) := by
      simp [cdSyncStep, hp, hres]
    rw [List.replicate_succ]
    simp [cdSyncCalls, hstep, ih, List.replicate_succ]

/-- C1: request collapsing in `cd`.  (i) If a fetch is pending and the call
resolves to the pending path, the synchronous prefix returns the very same
pending promise and leaves the state — in particular the fetch count —
untouched, so every such caller shares one underlying fetch and observes
that promise's resolved state.  (ii) If a fetch for a *different* resolved
path is pending, the prefix suspends awaiting that pending promise; it
issues no fetch before the pending one completes.  (iii) For `k + 1`
concurrent `cd t` calls issued from a no-pending state before any of them
resolves, the first issues the single underlying fetch and all later ones
are handed the very same promise: exactly one fetch occurs. -/
theorem c1_request_collapsing (st : NavPend) (t : String) :
    (∀ pid pp, st.pending = some (pid, pp) →
        cdResolve st.modelPath (some pp) t = pp →
        cdSyncStep st t = (.samePending pid, st))
    ∧ (∀ pid pp, st.pending = some (pid, pp) →
        cdResolve st.modelPath (some pp) t ≠ pp →
        cdSyncStep st t = (.awaitPending pid, st))
    ∧ (st.pending = none → ∀ k,
        (cdSyncCalls st (List.replicate (k + 1) t)).2 =
          .issued st.nextId :: List.replicate k (.samePending st.nextId)
        ∧ (cdSyncCalls st (List.replicate (k + 1) t)).1.fetchCount = st.fetchCount + 1) := by
  refine ⟨?_, ?_, ?_⟩
  · intro pid pp hp hres
    simp [cdSyncStep, hp, hres]
  · intro pid pp hp hres
    simp [cdSyncStep, hp, hres]
  · intro hnone k
    have hstep : cdSyncStep st t =
        (.issued st.nextId,
          { st with
            pending := some (st.nextId, cdResolve st.modelPath none t)
            nextId := st.nextId + 1
            fetchCount := st.fetchCount + 1 }) := by
      simp [cdSyncStep, hnone]
    have hrest := cdSyncCalls_samePending
      { st with
        pending := some (st.nextId, cdResolve st.modelPath none t)
        nextId := st.nextId + 1
        fetchCount := st.fetchCount + 1 }
      t st.nextId (cdResolve st.modelPath none t) rfl (cdResolve_stable st.modelPath t) k
    rw [List.replicate_succ]
    constructor
    · simp [cdSyncCalls, hstep, hrest]
    · simp [cdSyncCalls, hstep, hrest]

/-- C1 witness: the collapsing theorem applied concretely — reusing the
pending promise `7` when `cd "b"` is called from path `"a"` while a fetch
for `"a/b"` is pending; awaiting promise `7` when a fetch for the different
path `"x"` is pending; and three concurrent `cd "b"` calls from a
no-pending state producing one issued fetch and two reuses of promise
`0`. -/
theorem c1_request_collapsing_witness :
    (cdSyncStep ⟨"a", some (7, "a/b"), 8, 1⟩ "b" =
      (.samePending 7, ⟨"a", some (7, "a/b"), 8, 1⟩))
    ∧ (cdSyncStep ⟨"a", some (7, "x"), 8, 1⟩ "b" =
      (.awaitPending 7, ⟨"a", some (7, "x"), 8, 1⟩))
    ∧ ((cdSyncCalls ⟨"a", none, 0, 0⟩ (List.replicate 3 "b")).2 =
        .issued 0 :: List.replicate 2 (.samePending 0))
    ∧ ((cdSyncCalls ⟨"a", none, 0, 0⟩ (List.replicate 3 "b")).1.fetchCount = 0 + 1) := by
  refine ⟨?_, ?_, ?_, ?_⟩
  · exact (c1_request_collapsing ⟨"a", some (7, "a/b"), 8, 1⟩ "b").1 7 "a/b" rfl (by decide)
  · exact (c1_request_collapsing ⟨"a", some (7, "x"), 8, 1⟩ "b").2.1 7 "x" rfl (by decide)
  · exact ((c1_request_collapsing ⟨"a", none, 0, 0⟩ "b").2.2 rfl 2).1
  · exact ((c1_request_collapsing ⟨"a", none, 0, 0⟩ "b").2.2 rfl 2).2

/-- Recogniser for `start` emissions. -/
def isStartA : UAct → Bool
  | .emitStart _ => true
  | _ => false

/-- Recogniser for `finish` emissions. -/
def isFinishA : UAct → Bool
  | .emitFinish => true
  | _ => false

/-- Recogniser for network saves. -/
def isSaveA : UAct → Bool
  | .save _ _ => true
  | _ => false

/-- Helper: splicing a singleton list at its own element empties it. -/
theorem spliceAt_singleton (u : UploadEntry) : spliceAt [u] u = [] := by
  simp [spliceAt]

/-- Helper: `npieces` is `1` at a terminal piece. -/
theorem npieces_last {sz j : Nat} (h : sz ≤ (j + 1) * CHUNK_SIZE) : npieces sz j = 1 := by
  unfold npieces
  have h0 : sz - j * CHUNK_SIZE - 1 < CHUNK_SIZE := by
    unfold CHUNK_SIZE at *
    omega
  rw [Nat.div_eq_of_lt h0]

/-- Helper: `npieces` counts one piece per loop iteration. -/
theorem npieces_step {sz j : Nat} (h : ¬ sz ≤ (j + 1) * CHUNK_SIZE) :
    npieces sz j = 1 + npieces sz (j + 1) := by
  unfold npieces
  have hc : 0 < CHUNK_SIZE := by decide
  have he : sz - j * CHUNK_SIZE - 1 = (sz - (j + 1) * CHUNK_SIZE - 1) + CHUNK_SIZE := by
    unfold CHUNK_SIZE at *
    omega
  rw [he, Nat.add_div_right _ hc]
  omega

/-- Helper: characterisation of the chunked loop when the model is never
disposed and every save succeeds: the trace is one `update`+save block per
piece followed by a single `finish`, the tracked entry is spliced away, and
no error occurs. -/
theorem chunkLoop_success (fname path : String) (sz : Nat) (dis ok : Nat → Bool)
    (hdis : ∀ i, dis i = false) (hok : ∀ i, ok i = true) :
    ∀ (n j : Nat) (upload : UploadEntry) (uploads : List UploadEntry),
      npieces sz j = n → spliceAt uploads upload = [] →
      chunkLoop fname path sz dis ok j upload uploads =
        { trace := blocksUpTo sz j n ++ [.emitFinish]
          uploads := []
          err := none } := by
  intro n
  induction n with
  | zero =>
    intro j upload uploads hn hsp
    exfalso
    unfold npieces CHUNK_SIZE at hn
    omega
  | succ n ih =>
    intro j upload uploads hn hsp
    by_cases hlast : sz ≤ (j + 1) * CHUNK_SIZE
    · have hn1 : n = 0 := by have := npieces_last hlast; omega
      subst hn1
      unfold chunkLoop
      simp only [hdis j, hok j, Bool.false_eq_true, if_false, if_true, hsp,
        List.nil_append, if_pos hlast]
      simp [spliceAt_singleton, blocksUpTo, pieceBlock]
    · have hn' : npieces sz (j + 1) = n := by have := npieces_step hlast; omega
      unfold chunkLoop
      simp only [hdis j, hok j, Bool.false_eq_true, if_false, if_true, hsp,
        List.nil_append, if_neg hlast]
      rw [ih (j + 1) _ _ hn' (spliceAt_singleton _)]
      simp [blocksUpTo, pieceBlock]

/-- Helper: characterisation of the chunked loop when the model becomes
disposed at piece `j0` (all earlier pieces clean and successful): the trace
is the blocks for the pieces before `j0`, then piece `j0`'s `update`
emission, the disposed rejection, and the single `failure` emission from
the catch handler; no save is performed for piece `j0` or later; the catch
handler's cleanup runs `removeFirstWhere` with the `file.name`-vs-path
predicate on the tracked entry. -/
theorem chunkLoop_disposedAt (fname path : String) (sz : Nat) (dis ok : Nat → Bool) (j0 : Nat)
    (hpre : ∀ i, i < j0 → dis i = false ∧ ok i = true)
    (hd : dis j0 = true) (hreach : j0 * CHUNK_SIZE < sz) :
    ∀ (d j : Nat) (upload : UploadEntry) (uploads : List UploadEntry),
      j + d = j0 → spliceAt uploads upload = [] →
      chunkLoop fname path sz dis ok j upload uploads =
        { trace := blocksUpTo sz j d ++
            [.emitUpdate (((j0 * CHUNK_SIZE : Nat) : ℚ) / (sz : ℚ)), .rejectDisposed,
              .emitFailure]
          uploads := List.eraseP (fun u => decide (fname = u.path))
            [⟨path, ((j0 * CHUNK_SIZE : Nat) : ℚ) / (sz : ℚ)⟩]
          err := some .disposed } := by
  intro d
  induction d with
  | zero =>
    intro j upload uploads hj hsp
    have hj0 : j = j0 := by omega
    subst hj0
    unfold chunkLoop
    simp only [hd, if_true, hsp, List.nil_append]
    simp [blocksUpTo]
  | succ d ih =>
    intro j upload uploads hj hsp
    have hjlt : j < j0 := by omega
    have hnotlast : ¬ sz ≤ (j + 1) * CHUNK_SIZE := by
      have hm : (j + 1) * CHUNK_SIZE ≤ j0 * CHUNK_SIZE := Nat.mul_le_mul_right _ (by omega)
      omega
    unfold chunkLoop
    simp only [(hpre j hjlt).1, (hpre j hjlt).2, Bool.false_eq_true, if_false, if_true, hsp,
      List.nil_append, if_neg hnotlast]
    rw [ih (j + 1) _ _ (by omega) (spliceAt_singleton _)]
    simp [blocksUpTo, pieceBlock]

/-- Helper: characterisation of the chunked loop when piece `j0`'s save
fails (all earlier pieces clean and successful, no disposal): the trace is
the blocks for the pieces before `j0`, then piece `j0`'s `update` emission
and its save, and the single `failure` emission from the catch handler; no
piece after `j0` is attempted; the catch handler's cleanup runs
`removeFirstWhere` with the `file.name`-vs-path predicate on the tracked
entry. -/
theorem chunkLoop_saveFailAt (fname path : String) (sz : Nat) (dis ok : Nat → Bool) (j0 : Nat)
    (hpre : ∀ i, i < j0 → dis i = false ∧ ok i = true)
    (hd0 : dis j0 = false) (hok0 : ok j0 = false) (hreach : j0 * CHUNK_SIZE < sz) :
    ∀ (d j : Nat) (upload : UploadEntry) (uploads : List UploadEntry),
      j + d = j0 → spliceAt uploads upload = [] →
      chunkLoop fname path sz dis ok j upload uploads =
        { trace := blocksUpTo sz j d ++
            [.emitUpdate (((j0 * CHUNK_SIZE : Nat) : ℚ) / (sz : ℚ)),
              .save (j0 * CHUNK_SIZE) (chunkArg sz j0), .emitFailure]
          uploads := List.eraseP (fun u => decide (fname = u.path))
            [⟨path, ((j0 * CHUNK_SIZE : Nat) : ℚ) / (sz : ℚ)⟩]
          err := some .saveErr } := by
  intro d
  induction d with
  | zero =>
    intro j upload uploads hj hsp
    have hj0 : j = j0 := by omega
    subst hj0
    unfold chunkLoop
    simp only [hd0, hok0, Bool.false_eq_true, if_false, if_true, hsp, List.nil_append]
    simp [blocksUpTo]
  | succ d ih =>
    intro j upload uploads hj hsp
    have hjlt : j < j0 := by omega
    have hnotlast : ¬ sz ≤ (j + 1) * CHUNK_SIZE := by
      have hm : (j + 1) * CHUNK_SIZE ≤ j0 * CHUNK_SIZE := Nat.mul_le_mul_right _ (by omega)
      omega
    unfold chunkLoop
    simp only [(hpre j hjlt).1, (hpre j hjlt).2, Bool.false_eq_true, if_false, if_true, hsp,
      List.nil_append, if_neg hnotlast]
    rw [ih (j + 1) _ _ (by omega) (spliceAt_singleton _)]
    simp [blocksUpTo, pieceBlock]

/-- Helper: `updatesOf` distributes over append. -/
theorem updatesOf_append (l1 l2 : List UAct) :
    updatesOf (l1 ++ l2) = updatesOf l1 ++ updatesOf l2 := by
  unfold updatesOf
  exact List.filterMap_append l1 l2 _

/-- The expected update progresses of `n` consecutive pieces starting at
piece `j`: piece `j`'s `update` is emitted when `j * CHUNK_SIZE` bytes have
been sent, so it carries `j * CHUNK_SIZE / sz`. -/
def progList (sz : Nat) : Nat → Nat → List ℚ
  | _, 0 => []
  | j, n + 1 => (((j * CHUNK_SIZE : Nat) : ℚ) / (sz : ℚ)) :: progList sz (j + 1) n

/-- Helper: the update progresses of `n` consecutive piece blocks starting
at piece `j` are exactly `progList sz j n`. -/
theorem updatesOf_blocksUpTo (sz : Nat) :
    ∀ (n j : Nat), updatesOf (blocksUpTo sz j n) = progList sz j n := by
  intro n
  induction n with
  | zero => intro j; simp [blocksUpTo, progList, updatesOf]
  | succ n ih =>
    intro j
    rw [blocksUpTo, updatesOf_append, ih (j + 1), progList]
    have h1 : updatesOf (pieceBlock sz j) = [((j * CHUNK_SIZE : Nat) : ℚ) / (sz : ℚ)] := by
      simp [updatesOf, pieceBlock]
    rw [h1]
    rfl

/-- Helper: every progress in `progList sz j n` is at least piece `j`'s
progress. -/
theorem progList_lb (sz : Nat) (hsz : 0 < sz) :
    ∀ (n j : Nat) (q : ℚ), q ∈ progList sz j n →
      (((j * CHUNK_SIZE : Nat) : ℚ) / (sz : ℚ)) ≤ q := by
  intro n
  induction n with
  | zero => intro j q hq; simp [progList] at hq
  | succ n ih =>
    intro j q hq
    rw [progList, List.mem_cons] at hq
    rcases hq with hq | hq
    · exact le_of_eq hq.symm
    · refine le_trans ?_ (ih (j + 1) q hq)
      have hszq : (0 : ℚ) < (sz : ℚ) := by exact_mod_cast hsz
      rw [div_le_div_iff_of_pos_right hszq]
      have : j * CHUNK_SIZE ≤ (j + 1) * CHUNK_SIZE :=
        Nat.mul_le_mul_right _ (Nat.le_succ j)
      exact_mod_cast this

/-- Helper: the update progresses of consecutive pieces are strictly
increasing. -/
theorem progList_pairwise (sz : Nat) (hsz : 0 < sz) :
    ∀ (n j : Nat), (progList sz j n).Pairwise (· < ·) := by
  intro n
  induction n with
  | zero => intro j; simp [progList]
  | succ n ih =>
    intro j
    rw [progList]
    refine List.Pairwise.cons ?_ (ih (j + 1))
    intro q hq
    refine lt_of_lt_of_le ?_ (progList_lb sz hsz n (j + 1) q hq)
    have hszq : (0 : ℚ) < (sz : ℚ) := by exact_mod_cast hsz
    rw [div_lt_div_iff_of_pos_right hszq]
    have hc : 0 < CHUNK_SIZE := by decide
    have : j * CHUNK_SIZE < (j + 1) * CHUNK_SIZE := by
      have := Nat.mul_lt_mul_of_lt_of_le (Nat.lt_succ_self j) (Nat.le_refl CHUNK_SIZE) hc
      exact this
    exact_mod_cast this

/-- Helper: piece blocks contain no `start` emission. -/
theorem blocksUpTo_countP_start (sz : Nat) :
    ∀ (n j : Nat), (blocksUpTo sz j n).countP isStartA = 0 := by
  intro n
  induction n with
  | zero => intro j; simp [blocksUpTo]
  | succ n ih =>
    intro j
    rw [blocksUpTo, List.countP_append, ih (j + 1)]
    simp [pieceBlock, isStartA, List.countP_cons]

/-- Helper: piece blocks contain no `finish` emission. -/
theorem blocksUpTo_countP_finish (sz : Nat) :
    ∀ (n j : Nat), (blocksUpTo sz j n).countP isFinishA = 0 := by
  intro n
  induction n with
  | zero => intro j; simp [blocksUpTo]
  | succ n ih =>
    intro j
    rw [blocksUpTo, List.countP_append, ih (j + 1)]
    simp [pieceBlock, isFinishA, List.countP_cons]

/-- Helper: `n` piece blocks perform exactly `n` network saves. -/
theorem blocksUpTo_countP_save (sz : Nat) :
    ∀ (n j : Nat), (blocksUpTo sz j n).countP isSaveA = n := by
  intro n
  induction n with
  | zero => intro j; simp [blocksUpTo]
  | succ n ih =>
    intro j
    rw [blocksUpTo, List.countP_append, ih (j + 1)]
    simp [pieceBlock, isSaveA, List.countP_cons]
    omega

/-- C2: for a chunked upload (size above `CHUNK_SIZE`) in which the model
is never disposed and every chunk save succeeds, the `uploadChanged`
emissions are in strict order: the trace is exactly one `start` with
progress `0` (the very first event), then per piece one `update` followed
by that piece's save — so an `update` is emitted between any two
consecutive saves, carrying the bytes already sent divided by the total
size — and finally exactly one `finish` (the very last event, right after
the terminal piece's save).  The update progresses are `progList`, whose
head is `0` and which is strictly increasing; afterwards the in-flight
uploads list is empty, so the task is absent. -/
theorem c2_chunked_success_events (fname mpath : String) (sz : Nat) (dis ok : Nat → Bool)
    (hsz : CHUNK_SIZE < sz) (hdis : ∀ i, dis i = false) (hok : ∀ i, ok i = true) :
    (uploadChunked fname mpath sz dis ok []).err = none
    ∧ (uploadChunked fname mpath sz dis ok []).uploads = []
    ∧ (uploadChunked fname mpath sz dis ok []).trace =
        .emitStart 0 :: (blocksUpTo sz 0 (npieces sz 0) ++ [.emitFinish])
    ∧ updatesOf (uploadChunked fname mpath sz dis ok []).trace = progList sz 0 (npieces sz 0)
    ∧ (updatesOf (uploadChunked fname mpath sz dis ok []).trace).head? = some 0
    ∧ (updatesOf (uploadChunked fname mpath sz dis ok []).trace).Pairwise (· < ·)
    ∧ (uploadChunked fname mpath sz dis ok []).trace.countP isStartA = 1
    ∧ (uploadChunked fname mpath sz dis ok []).trace.head? = some (.emitStart 0)
    ∧ (uploadChunked fname mpath sz dis ok []).trace.countP isFinishA = 1
    ∧ (uploadChunked fname mpath sz dis ok []).trace.getLast? = some .emitFinish := by
  have hrun := chunkLoop_success fname (uploadDestPath mpath fname) sz dis ok hdis hok
    (npieces sz 0) 0 ⟨uploadDestPath mpath fname, 0⟩ [] rfl (by simp [spliceAt])
  have htrace : (uploadChunked fname mpath sz dis ok []).trace =
      .emitStart 0 :: (blocksUpTo sz 0 (npieces sz 0) ++ [.emitFinish]) := by
    unfold uploadChunked
    rw [hrun]
  have hupdates : updatesOf (uploadChunked fname mpath sz dis ok []).trace =
      progList sz 0 (npieces sz 0) := by
    rw [htrace]
    rw [show (UAct.emitStart 0 :: (blocksUpTo sz 0 (npieces sz 0) ++ [.emitFinish])) =
      ([UAct.emitStart 0] ++ blocksUpTo sz 0 (npieces sz 0)) ++ [UAct.emitFinish] by simp]
    rw [updatesOf_append, updatesOf_append, updatesOf_blocksUpTo]
    simp [updatesOf]
  have hszpos : 0 < sz := by
    have hc : 0 < CHUNK_SIZE := by decide
    omega
  have hnsucc : ∃ m, npieces sz 0 = m + 1 := ⟨(sz - 0 * CHUNK_SIZE - 1) / CHUNK_SIZE, rfl⟩
  refine ⟨?_, ?_, htrace, hupdates, ?_, ?_, ?_, ?_, ?_, ?_⟩
  · unfold uploadChunked
    rw [hrun]
  · unfold uploadChunked
    rw [hrun]
  · obtain ⟨m, hm⟩ := hnsucc
    rw [hupdates, hm, progList]
    simp
  · rw [hupdates]
    exact progList_pairwise sz hszpos (npieces sz 0) 0
  · rw [htrace]
    rw [List.countP_cons, List.countP_append, blocksUpTo_countP_start]
    simp [isStartA]
  · rw [htrace]
    rfl
  · rw [htrace]
    rw [List.countP_cons, List.countP_append, blocksUpTo_countP_finish]
    simp [isFinishA]
  · rw [htrace, ← List.cons_append, List.getLast?_concat]

/-- Recogniser for `failure` emissions. -/
def isFailureA : UAct → Bool
  | .emitFailure => true
  | _ => false

/-- C2 witness: a three-piece chunked upload (`2 * CHUNK_SIZE + 5` bytes)
with no disposal and all saves succeeding, with every hypothesis of the
success theorem discharged concretely. -/
theorem c2_chunked_success_events_witness :
    CHUNK_SIZE < 2 * CHUNK_SIZE + 5
    ∧ (uploadChunked "f" "a" (2 * CHUNK_SIZE + 5) (fun _ => false) (fun _ => true) []).err = none
    ∧ (uploadChunked "f" "a" (2 * CHUNK_SIZE + 5) (fun _ => false) (fun _ => true) []).uploads = []
    ∧ (uploadChunked "f" "a" (2 * CHUNK_SIZE + 5) (fun _ => false) (fun _ => true) []).trace =
        .emitStart 0 :: (blocksUpTo (2 * CHUNK_SIZE + 5) 0 (npieces (2 * CHUNK_SIZE + 5) 0) ++
          [.emitFinish])
    ∧ (updatesOf
        (uploadChunked "f" "a" (2 * CHUNK_SIZE + 5) (fun _ => false)
          (fun _ => true) []).trace).Pairwise (· < ·) := by
  have h := c2_chunked_success_events "f" "a" (2 * CHUNK_SIZE + 5) (fun _ => false)
    (fun _ => true) (by decide) (fun _ => rfl) (fun _ => rfl)
  exact ⟨by decide, h.1, h.2.1, h.2.2.1, h.2.2.2.2.2.1⟩

/-- C8 counterexample: dispose the model while the second piece (piece `1`)
of a two-piece chunked upload is about to run.  The disposal check rejects
with the disposed error (`err = disposed`, no save for piece `1`), but the
catch handler of the chunked loop then emits one `failure` `uploadChanged`
event *after* that rejection: the trace ends `rejectDisposed, emitFailure`.
The claim says no `uploadChanged` event is emitted after the rejection. -/
theorem c8_counterexample :
    ((uploadChunked "f" "" (CHUNK_SIZE + 1) (fun j => decide (j = 1))
        (fun _ => true) []).err = some .disposed)
    ∧ ((uploadChunked "f" "" (CHUNK_SIZE + 1) (fun j => decide (j = 1))
        (fun _ => true) []).trace =
      [.emitStart 0, .emitUpdate 0, .save 0 1,
        .emitUpdate (((CHUNK_SIZE : Nat) : ℚ) / ((CHUNK_SIZE + 1 : Nat) : ℚ)),
        .rejectDisposed, .emitFailure])
    ∧ ((uploadChunked "f" "" (CHUNK_SIZE + 1) (fun j => decide (j = 1))
        (fun _ => true) []).trace.getLast? = some .emitFailure) := by
  have hrun := chunkLoop_disposedAt "f" (uploadDestPath "" "f") (CHUNK_SIZE + 1)
    (fun j => decide (j = 1)) (fun _ => true) 1
    (fun i hi => by
      have h0 : i = 0 := by omega
      subst h0
      exact ⟨rfl, rfl⟩)
    rfl (by decide) 1 0 ⟨uploadDestPath "" "f", 0⟩ [] (by omega) (by simp [spliceAt])
  have htr : (uploadChunked "f" "" (CHUNK_SIZE + 1) (fun j => decide (j = 1))
      (fun _ => true) []).trace =
      [.emitStart 0, .emitUpdate 0, .save 0 1,
        .emitUpdate (((CHUNK_SIZE : Nat) : ℚ) / ((CHUNK_SIZE + 1 : Nat) : ℚ)),
        .rejectDisposed, .emitFailure] := by
    unfold uploadChunked
    rw [hrun]
    norm_num [blocksUpTo, pieceBlock, chunkArg, CHUNK_SIZE]
  refine ⟨?_, htr, ?_⟩
  · unfold uploadChunked
    rw [hrun]
  · rw [htr]
    rfl

/-- C8 (amended): disposing the model during a chunked upload makes the
next disposal check reject with the disposed error: every piece before the
disposal runs normally, piece `j0`'s save — and every later network
interaction — never happens (exactly `j0` saves occur), and the rejection
aborts the loop; however, the chunked loop's catch handler still emits
exactly one `failure` `uploadChanged` event after the rejection (no event
follows it), and runs its `removeFirstWhere` cleanup on the tracked
task. -/
theorem c8_disposed_rejects (fname mpath : String) (sz : Nat) (dis ok : Nat → Bool) (j0 : Nat)
    (hpre : ∀ i, i < j0 → dis i = false ∧ ok i = true)
    (hd : dis j0 = true) (hreach : j0 * CHUNK_SIZE < sz) :
    ((uploadChunked fname mpath sz dis ok []).err = some .disposed)
    ∧ ((uploadChunked fname mpath sz dis ok []).trace =
        .emitStart 0 :: (blocksUpTo sz 0 j0 ++
          [.emitUpdate (((j0 * CHUNK_SIZE : Nat) : ℚ) / (sz : ℚ)), .rejectDisposed,
            .emitFailure]))
    ∧ ((uploadChunked fname mpath sz dis ok []).trace.countP isSaveA = j0)
    ∧ ((uploadChunked fname mpath sz dis ok []).trace.getLast? = some .emitFailure)
    ∧ ((uploadChunked fname mpath sz dis ok []).uploads =
        List.eraseP (fun u => decide (fname = u.path))
          [⟨uploadDestPath mpath fname, ((j0 * CHUNK_SIZE : Nat) : ℚ) / (sz : ℚ)⟩]) := by
  have hrun := chunkLoop_disposedAt fname (uploadDestPath mpath fname) sz dis ok j0 hpre hd
    hreach j0 0 ⟨uploadDestPath mpath fname, 0⟩ [] (by omega) (by simp [spliceAt])
  have htr : (uploadChunked fname mpath sz dis ok []).trace =
      .emitStart 0 :: (blocksUpTo sz 0 j0 ++
        [.emitUpdate (((j0 * CHUNK_SIZE : Nat) : ℚ) / (sz : ℚ)), .rejectDisposed,
          .emitFailure]) := by
    unfold uploadChunked
    rw [hrun]
  refine ⟨?_, htr, ?_, ?_, ?_⟩
  · unfold uploadChunked
    rw [hrun]
  · rw [htr, List.countP_cons, List.countP_append, blocksUpTo_countP_save]
    simp [isSaveA, List.countP_cons]
  · rw [htr]
    rw [show (blocksUpTo sz 0 j0 ++
        [UAct.emitUpdate (((j0 * CHUNK_SIZE : Nat) : ℚ) / (sz : ℚ)), .rejectDisposed,
          .emitFailure]) =
      ((blocksUpTo sz 0 j0 ++
        [UAct.emitUpdate (((j0 * CHUNK_SIZE : Nat) : ℚ) / (sz : ℚ)), .rejectDisposed]) ++
        [UAct.emitFailure]) by simp]
    rw [← List.cons_append, List.getLast?_concat]
  · unfold uploadChunked
    rw [hrun]

/-- C8 witness: the amended theorem applied to a two-piece upload disposed
at piece `1`, with every hypothesis discharged concretely. -/
theorem c8_disposed_rejects_witness :
    ((fun j => decide (j = 1)) 1 = true ∧ 1 * CHUNK_SIZE < CHUNK_SIZE + 1)
    ∧ ((uploadChunked "g" "d" (CHUNK_SIZE + 1) (fun j => decide (j = 1))
        (fun _ => true) []).err = some .disposed)
    ∧ ((uploadChunked "g" "d" (CHUNK_SIZE + 1) (fun j => decide (j = 1))
        (fun _ => true) []).trace.countP isSaveA = 1)
    ∧ ((uploadChunked "g" "d" (CHUNK_SIZE + 1) (fun j => decide (j = 1))
        (fun _ => true) []).trace.getLast? = some .emitFailure) := by
  have h := c8_disposed_rejects "g" "d" (CHUNK_SIZE + 1) (fun j => decide (j = 1))
    (fun _ => true) 1
    (fun i hi => by
      have h0 : i = 0 := by omega
      subst h0
      exact ⟨rfl, rfl⟩)
    rfl (by decide)
  exact ⟨⟨rfl, by decide⟩, h.1, h.2.2.1, h.2.2.2.1⟩

/-- C3: evaluation of the chunked failure path at the failing input.  A
two-piece chunked upload of file `"f"` from current directory `"a"` (task
path `"a/f"`) whose first chunk save fails emits exactly one `failure`
event and attempts no further piece (the trace ends at the failing save's
`emitFailure`) — but the failed task is still in the in-flight uploads
list: the catch handler's `removeFirstWhere` compares `file.name` (`"f"`)
against the task's *path* (`"a/f"`), so it removes nothing outside the root
directory.  The same run from the root directory (task path `"f"`) does
remove the task, which is the evident intent of the cleanup. -/
theorem c3_failure_leaves_task_tracked :
    ((uploadChunked "f" "a" (CHUNK_SIZE + 1) (fun _ => false) (fun _ => false) []).err =
      some .saveErr)
    ∧ ((uploadChunked "f" "a" (CHUNK_SIZE + 1) (fun _ => false) (fun _ => false) []).trace =
      [.emitStart 0, .emitUpdate 0, .save 0 1, .emitFailure])
    ∧ ((uploadChunked "f" "a" (CHUNK_SIZE + 1) (fun _ => false)
        (fun _ => false) []).trace.countP isFailureA = 1)
    ∧ ((uploadChunked "f" "a" (CHUNK_SIZE + 1) (fun _ => false)
        (fun _ => false) []).trace.countP isSaveA = 1)
    ∧ ((uploadChunked "f" "a" (CHUNK_SIZE + 1) (fun _ => false) (fun _ => false) []).uploads =
      [⟨"a/f", 0⟩])
    ∧ ((uploadChunked "f" "" (CHUNK_SIZE + 1) (fun _ => false) (fun _ => false) []).uploads =
      []) := by
  have hrun := chunkLoop_saveFailAt "f" (uploadDestPath "a" "f") (CHUNK_SIZE + 1)
    (fun _ => false) (fun _ => false) 0
    (fun i hi => absurd hi (by omega)) rfl rfl (by decide)
    0 0 ⟨uploadDestPath "a" "f", 0⟩ [] (by omega) (by simp [spliceAt])
  have hrunRoot := chunkLoop_saveFailAt "f" (uploadDestPath "" "f") (CHUNK_SIZE + 1)
    (fun _ => false) (fun _ => false) 0
    (fun i hi => absurd hi (by omega)) rfl rfl (by decide)
    0 0 ⟨uploadDestPath "" "f", 0⟩ [] (by omega) (by simp [spliceAt])
  have htr : (uploadChunked "f" "a" (CHUNK_SIZE + 1) (fun _ => false)
      (fun _ => false) []).trace = [.emitStart 0, .emitUpdate 0, .save 0 1, .emitFailure] := by
    unfold uploadChunked
    rw [hrun]
    norm_num [blocksUpTo, pieceBlock, chunkArg, CHUNK_SIZE]
  refine ⟨?_, htr, ?_, ?_, ?_, ?_⟩
  · unfold uploadChunked
    rw [hrun]
  · rw [htr]
    rfl
  · rw [htr]
    rfl
  · unfold uploadChunked
    rw [hrun]
    norm_num [List.eraseP, CHUNK_SIZE]
    decide
  · unfold uploadChunked
    rw [hrunRoot]
    norm_num [List.eraseP, CHUNK_SIZE]
    decide

/-- The item pipeline of a `FilterFileBrowserModel`: the raw cached items
pass through the hidden-file toggle (`TogglableHiddenFileBrowserModel.items`,
the `super.items()` that the filter stage consumes) and then through the
caller-supplied filter. -/
def filterBrowserItems (includeHiddenFiles : Bool) (filt : DirEntry → FilterRes)
    (raw : List DirEntry) : List DirEntry :=
  filterModelItems filt (togglableItems includeHiddenFiles raw)

/-- C10: `FilterFileBrowserModel.items` yields every directory entry of the
listing it consumes (`super.items()`) unchanged; the caller-supplied filter
is applied only to non-directory entries, and a non-directory entry is
yielded exactly when the filter result is truthy (`!!filtered`), with its
`indices` field rewritten when the result is not a boolean.  Stated as:
(i) directory membership is preserved, (ii) the full characterisation —
the yield is the sublist of entries that are directories or filter-truthy,
with `applyIndices` applied to the non-directories — and (iii) a
non-directory singleton is yielded exactly when the filter is truthy. -/
theorem c10_filter_items (filt : DirEntry → FilterRes) :
    (∀ (l : List DirEntry) (e : DirEntry), e ∈ l → e.type = "directory" →
      e ∈ filterModelItems filt l)
    ∧ (∀ l : List DirEntry,
        filterModelItems filt l =
          (l.filter fun e => decide (e.type = "directory") || truthyF (filt e)).map
            fun e => if e.type = "directory" then e else applyIndices filt e)
    ∧ (∀ e : DirEntry, e.type ≠ "directory" →
        filterModelItems filt [e] =
          if truthyF (filt e) then [applyIndices filt e] else []) := by
  refine ⟨?_, ?_, ?_⟩
  · intro l
    induction l with
    | nil => intro e he _; simp at he
    | cons a l ih =>
      intro e he hdir
      rw [List.mem_cons] at he
      rcases he with rfl | he
      · rw [filterModelItems, if_pos hdir]
        exact List.mem_cons_self _ _
      · rw [filterModelItems]
        by_cases hd : a.type = "directory"
        · rw [if_pos hd]
          exact List.mem_cons_of_mem _ (ih e he hdir)
        · rw [if_neg hd]
          by_cases ht : truthyF (filt a) = true
          · rw [if_pos ht]
            exact List.mem_cons_of_mem _ (ih e he hdir)
          · rw [if_neg ht]
            exact ih e he hdir
  · intro l
    induction l with
    | nil => rfl
    | cons a l ih =>
      rw [filterModelItems, List.filter_cons]
      by_cases hd : a.type = "directory"
      · simp [hd, ih]
      · by_cases ht : truthyF (filt a) = true
        · simp [hd, ht, ih, applyIndices]
        · simp [hd, ht, ih]
  · intro e hdir
    rw [filterModelItems, if_neg hdir]
    by_cases ht : truthyF (filt e) = true
    · rw [if_pos ht, if_pos ht]
      rfl
    · rw [if_neg ht, if_neg ht]
      rfl

/-- C10 witness: a concrete listing with one directory, one file the
filter scores (truthy) and one file the filter rejects with `null`: the
directory survives, the scored file is yielded with its `indices`
rewritten, the rejected file is dropped. -/
theorem c10_filter_items_witness :
    (⟨"d", "d", "directory", none⟩ : DirEntry) ∈
      filterModelItems (fun e => if e.name = "x" then .score (some [0]) else .nullv)
        [⟨"d", "d", "directory", none⟩, ⟨"x", "x", "file", none⟩, ⟨"y", "y", "file", none⟩]
    ∧ filterModelItems (fun e => if e.name = "x" then .score (some [0]) else .nullv)
        [⟨"d", "d", "directory", none⟩, ⟨"x", "x", "file", none⟩, ⟨"y", "y", "file", none⟩] =
      [⟨"d", "d", "directory", none⟩, ⟨"x", "x", "file", some [0]⟩]
    ∧ filterModelItems (fun e => if e.name = "x" then .score (some [0]) else .nullv)
        [⟨"y", "y", "file", none⟩] = [] := by
  refine ⟨?_, by decide, ?_⟩
  · exact (c10_filter_items _).1 _ _ (by decide) (by decide)
  · have h := (c10_filter_items
      (fun e => if e.name = "x" then FilterRes.score (some [0]) else .nullv)).2.2
      ⟨"y", "y", "file", none⟩ (by decide)
    rw [h]
    decide
